import Mathlib

/-!
Verification of the BooksPipeline data pipeline (src/main.py).

The pipeline cleans three bronze tabular datasets (books, ratings, users)
into silver datasets, aggregates ratings per book into a gold dataset, and
derives top-N ranked views.  Datasets are shallowly embedded as lists of row
structures; a nullable column is an `Option`.  Spark's SQL comparison
operators on a nullable column are three-valued, so the rating filter is
modelled with `Option Bool` conditions where a `none` (null) condition drops
the row, exactly as `DataFrame.filter` does.
-/

/-- A bronze/silver Books row: every column as read from CSV is nullable. -/
structure BookRow where
  isbn : Option String
  title : Option String
  author : Option String
  publisher : Option String
  year : Option Int
  deriving DecidableEq

/-- A bronze/silver Ratings row: (User-ID, ISBN, Book-Rating). -/
structure RatingRow where
  userID : Option Int
  isbn : Option String
  ratingValue : Option Int
  deriving DecidableEq

/-- A bronze/silver Users row: (User-ID, Location, Age). -/
structure UserRow where
  userID : Option Int
  location : Option String
  age : Option Int
  deriving DecidableEq

/-- SQL three-valued `col >= c`: null input yields null. -/
def sqlGe (x : Option Int) (c : Int) : Option Bool :=
  x.map (fun v => decide (c ≤ v))

/-- SQL three-valued `col <= c`: null input yields null. -/
def sqlLe (x : Option Int) (c : Int) : Option Bool :=
  x.map (fun v => decide (v ≤ c))

/-- SQL three-valued conjunction. -/
def sqlAnd : Option Bool → Option Bool → Option Bool
  | some false, _ => some false
  | _, some false => some false
  | some true, some true => some true
  | _, _ => none

/-- The filter condition `(col("Book-Rating") >= 0) & (col("Book-Rating") <= 10)`. -/
def ratingRowKeep (r : RatingRow) : Option Bool :=
  sqlAnd (sqlGe r.ratingValue 0) (sqlLe r.ratingValue 10)

/-- `self.books.dropna(subset=["Book-Title", "Book-Author"])`. -/
def books_silver (books : List BookRow) : List BookRow :=
  books.filter (fun b => b.title.isSome && b.author.isSome)

/-- `self.ratings.filter((col("Book-Rating") >= 0) & (col("Book-Rating") <= 10))`:
a row is kept only when the three-valued condition is true. -/
def ratings_silver (ratings : List RatingRow) : List RatingRow :=
  ratings.filter (fun r => ratingRowKeep r == some true)

/-- `self.users.dropna()`: drop rows with a null in any column. -/
def users_silver (users : List UserRow) : List UserRow :=
  users.filter (fun u => u.userID.isSome && u.location.isSome && u.age.isSome)

/-- The rating-range condition holds iff the rating is present and in [0, 10]. -/
theorem ratingRowKeep_eq_some_true (r : RatingRow) :
    (ratingRowKeep r == some true) = true ↔
      ∃ v, r.ratingValue = some v ∧ 0 ≤ v ∧ v ≤ 10 := by
  cases h : r.ratingValue with
  | none => simp [ratingRowKeep, sqlGe, sqlLe, sqlAnd, h]
  | some v =>
    by_cases h0 : (0 : Int) ≤ v <;> by_cases h10 : v ≤ 10 <;>
      simp [ratingRowKeep, sqlGe, sqlLe, sqlAnd, h, h0, h10]

/-- C2: every silver Ratings row has a present RatingValue in the closed
interval [0, 10], and a bronze row whose RatingValue lies outside [0, 10]
is absent from the silver Ratings dataset. -/
theorem ratings_silver_range (rs : List RatingRow) (r : RatingRow) (v : Int) :
    (r ∈ ratings_silver rs → ∃ w, r.ratingValue = some w ∧ 0 ≤ w ∧ w ≤ 10)
    ∧ (r.ratingValue = some v → (v < 0 ∨ 10 < v) → r ∉ ratings_silver rs) := by
  constructor
  · intro hr
    have h := (List.mem_filter.mp hr).2
    exact (ratingRowKeep_eq_some_true r).mp h
  · intro hv hout hr
    have h := (List.mem_filter.mp hr).2
    obtain ⟨w, hw, h0, h10⟩ := (ratingRowKeep_eq_some_true r).mp h
    rw [hv] at hw
    cases hw
    rcases hout with h | h <;> omega

/-- A Ratings row with value 11 (the spec's scenario): present in bronze,
absent from silver. -/
def ratingElevenRow : RatingRow :=
  { userID := some 1, isbn := some "X", ratingValue := some 11 }

/-- Witness for C2: the row with RatingValue 11 is dropped by the silver filter. -/
theorem ratings_silver_range_witness :
    ratingElevenRow ∉ ratings_silver [ratingElevenRow] :=
  (ratings_silver_range [ratingElevenRow] ratingElevenRow 11).2 rfl (Or.inr (by decide))

/-- C6: the silver Books rows are exactly the bronze rows whose title and
author are both non-null; nulls in other columns are not checked. -/
theorem books_silver_mem_iff (bs : List BookRow) (b : BookRow) :
    b ∈ books_silver bs ↔ b ∈ bs ∧ b.title ≠ none ∧ b.author ≠ none := by
  simp [books_silver, List.mem_filter, Option.isSome_iff_ne_none, and_assoc]

/-- A Books row that is null in publisher and year but has title and author. -/
def bookKeptRow : BookRow :=
  { isbn := some "B1", title := some "T", author := some "A", publisher := none, year := none }

/-- Witness for C6: a row with nulls only outside title/author is kept. -/
theorem books_silver_mem_iff_witness :
    bookKeptRow ∈ books_silver [bookKeptRow] ↔
      bookKeptRow ∈ [bookKeptRow] ∧ bookKeptRow.title ≠ none ∧ bookKeptRow.author ≠ none :=
  books_silver_mem_iff [bookKeptRow] bookKeptRow

/-- C7: the silver Users rows are exactly the bronze rows with no null in
any column. -/
theorem users_silver_mem_iff (us : List UserRow) (u : UserRow) :
    u ∈ users_silver us ↔ u ∈ us ∧ u.userID ≠ none ∧ u.location ≠ none ∧ u.age ≠ none := by
  simp [users_silver, List.mem_filter, Option.isSome_iff_ne_none, and_assoc]

/-- A Users row with a null Age column. -/
def userNullAgeRow : UserRow :=
  { userID := some 7, location := some "city", age := none }

/-- Witness for C7: a row with a null Age is dropped by `users_silver`. -/
theorem users_silver_mem_iff_witness :
    userNullAgeRow ∈ users_silver [userNullAgeRow] ↔
      userNullAgeRow ∈ [userNullAgeRow] ∧ userNullAgeRow.userID ≠ none ∧
        userNullAgeRow.location ≠ none ∧ userNullAgeRow.age ≠ none :=
  users_silver_mem_iff [userNullAgeRow] userNullAgeRow

/-- A row of the grouped-ratings intermediate table
`ratings_silver.groupBy("ISBN").agg(count(...), avg(...))`. -/
structure RatingAggRow where
  isbn : Option String
  rating_count : Nat
  avg_rating : Option ℚ
  deriving DecidableEq

/-- A gold row: the grouped-ratings columns joined with the Books columns. -/
structure GoldRow where
  isbn : Option String
  rating_count : Nat
  avg_rating : Option ℚ
  title : Option String
  author : Option String
  publisher : Option String
  year : Option Int
  deriving DecidableEq

/-- The rows of `rs` falling in the group with ISBN key `k`
(Spark's `groupBy` puts null keys in their own single group). -/
def ratingGroup (rs : List RatingRow) (k : Option String) : List RatingRow :=
  rs.filter (fun r => r.isbn == k)

/-- The aggregated row for the ISBN group `k`: `count("Book-Rating")` counts
the non-null ratings of the group, `avg("Book-Rating")` is their mean (null
when the group has no non-null rating, per SQL aggregate semantics). -/
def mkRatingAgg (rs : List RatingRow) (k : Option String) : RatingAggRow :=
  let vals : List Int := (ratingGroup rs k).filterMap (fun r => r.ratingValue)
  { isbn := k
    rating_count := vals.length
    avg_rating :=
      if vals.length = 0 then none
      else some ((vals.map (fun v : Int => (v : ℚ))).sum / (vals.length : ℚ)) }

/-- `ratings_silver.groupBy("ISBN").agg(count("Book-Rating"), avg("Book-Rating"))`:
one aggregated row per distinct ISBN key. -/
def groupRatingsByISBN (rs : List RatingRow) : List RatingAggRow :=
  ((rs.map (fun r => r.isbn)).dedup).map (mkRatingAgg rs)

/-- Inner join of one aggregated row with the Books dataset on ISBN:
null keys never match, each matching book contributes one joined row. -/
def joinGold (a : RatingAggRow) (bs : List BookRow) : List GoldRow :=
  (bs.filter (fun b => a.isbn.isSome && b.isbn == a.isbn)).map (fun b =>
    { isbn := a.isbn
      rating_count := a.rating_count
      avg_rating := a.avg_rating
      title := b.title
      author := b.author
      publisher := b.publisher
      year := b.year })

/-- `BooksPipeline.aggregate_gold`: group silver Ratings by ISBN, aggregate
count and mean, then inner-join with silver Books on ISBN. -/
def aggregate_gold (rs : List RatingRow) (bs : List BookRow) : List GoldRow :=
  (groupRatingsByISBN rs).flatMap (fun a => joinGold a bs)

/-- Gold membership unfolded to a group key and a joined book row. -/
theorem mem_aggregate_gold {g : GoldRow} {rs : List RatingRow} {bs : List BookRow} :
    g ∈ aggregate_gold rs bs ↔
      ∃ k ∈ (rs.map (fun r => r.isbn)).dedup, g ∈ joinGold (mkRatingAgg rs k) bs := by
  simp [aggregate_gold, groupRatingsByISBN, List.mem_flatMap]

/-- Rows joined from the aggregated row for key `k` carry ISBN `k`. -/
theorem isbn_of_mem_joinGold {g : GoldRow} {a : RatingAggRow} {bs : List BookRow}
    (h : g ∈ joinGold a bs) : g.isbn = a.isbn := by
  obtain ⟨b, _, rfl⟩ := List.mem_map.mp h
  rfl

/-- Counting matches of one ISBN in the join block of one aggregated row. -/
theorem countP_isbn_joinGold (rs : List RatingRow) (bs : List BookRow)
    (k : Option String) (s : String) :
    ((joinGold (mkRatingAgg rs k) bs).countP (fun g => g.isbn == some s))
      = if k = some s then bs.countP (fun b => b.isbn == some s) else 0 := by
  have hisbn : (mkRatingAgg rs k).isbn = k := rfl
  unfold joinGold
  rw [List.countP_map]
  simp only [Function.comp, hisbn]
  by_cases hk : k = some s
  · subst hk
    rw [if_pos rfl]
    simp [List.countP_eq_length_filter]
  · rw [if_neg hk]
    have h2 : (k == some s) = false := by
      simp [hk]
    simp [h2]

/-- Summing `if k = a then c else 0` over a list counts occurrences of `a`. -/
theorem sum_map_ite_count {α : Type} [DecidableEq α] (l : List α) (a : α) (c : Nat) :
    (l.map (fun k => if k = a then c else 0)).sum
      = l.countP (fun k => decide (k = a)) * c := by
  induction l with
  | nil => simp
  | cons x xs ih =>
    by_cases hx : x = a
    · subst hx
      simp [List.countP_cons, ih, Nat.add_mul, Nat.add_comm]
    · simp [hx, List.countP_cons, ih]

/-- In a duplicate-free list, a present element is matched exactly once. -/
theorem countP_eq_one_of_nodup_mem {α : Type} [DecidableEq α] {l : List α} {a : α}
    (hnd : l.Nodup) (ha : a ∈ l) : l.countP (fun x => decide (x = a)) = 1 := by
  induction l with
  | nil => cases ha
  | cons x xs ih =>
    rw [List.countP_cons]
    rcases List.mem_cons.mp ha with rfl | hmem
    · have hx : a ∉ xs := (List.nodup_cons.mp hnd).1
      have hz : xs.countP (fun y => decide (y = a)) = 0 := by
        refine List.countP_eq_zero.mpr ?_
        intro y hy
        simp only [decide_eq_true_eq]
        intro he
        exact hx (he ▸ hy)
      simp [hz]
    · have hne : x ≠ a := by
        rintro rfl
        exact (List.nodup_cons.mp hnd).1 hmem
      simp [ih (List.nodup_cons.mp hnd).2 hmem, hne]

/-- The number of gold rows carrying ISBN `s` is the number of occurrences of
`s` among the distinct rating keys times the number of book rows with ISBN `s`. -/
theorem countP_isbn_gold (rs : List RatingRow) (bs : List BookRow) (s : String) :
    ((aggregate_gold rs bs).countP (fun g => g.isbn == some s))
      = ((rs.map (fun r => r.isbn)).dedup.countP (fun k => decide (k = some s)))
          * (bs.countP (fun b => b.isbn == some s)) := by
  unfold aggregate_gold groupRatingsByISBN
  rw [List.countP_flatMap, List.map_map]
  have h1 : ∀ k ∈ (rs.map (fun r => r.isbn)).dedup,
      ((List.countP (fun g => g.isbn == some s) ∘ fun a => joinGold a bs) ∘ mkRatingAgg rs) k
        = if k = some s then bs.countP (fun b => b.isbn == some s) else 0 := by
    intro k _
    exact countP_isbn_joinGold rs bs k s
  rw [List.map_congr_left h1, sum_map_ite_count]

/-- Under the Books data-model key invariant (distinct non-null ISBNs),
exactly one book row carries a given present ISBN `s`. -/
theorem countP_books_eq_one (bs : List BookRow) (s : String)
    (hkey : (bs.filterMap (fun b => b.isbn)).Nodup)
    (h2 : some s ∈ bs.map (fun b => b.isbn)) :
    bs.countP (fun b => b.isbn == some s) = 1 := by
  have hc : List.count s (bs.filterMap (fun b => b.isbn))
      = bs.countP (fun b => b.isbn == some s) :=
    List.count_filterMap s (fun b => b.isbn) bs
  obtain ⟨b, hb, hbs⟩ := List.mem_map.mp h2
  have hmem : s ∈ bs.filterMap (fun b => b.isbn) := List.mem_filterMap.mpr ⟨b, hb, hbs⟩
  have hle : List.count s (bs.filterMap (fun b => b.isbn)) ≤ 1 :=
    List.nodup_iff_count_le_one.mp hkey s
  have hge : 0 < List.count s (bs.filterMap (fun b => b.isbn)) :=
    List.count_pos_iff.mpr hmem
  omega

/-- When every rating of a list is present, collecting the present ratings
keeps the list length. -/
theorem length_filterMap_ratingValue (l : List RatingRow)
    (h : ∀ r ∈ l, (r.ratingValue).isSome = true) :
    (l.filterMap (fun r => r.ratingValue)).length = l.length := by
  induction l with
  | nil => rfl
  | cons x xs ih =>
    obtain ⟨v, hv⟩ := Option.isSome_iff_exists.mp (h x (List.mem_cons_self x xs))
    simp [List.filterMap_cons, hv, ih (fun r hr => h r (List.mem_cons_of_mem x hr))]

/-- An ISBN occurring in the Ratings dataset has a non-empty group. -/
theorem ratingGroup_length_ne_zero (rs : List RatingRow) (s : String)
    (h : some s ∈ rs.map (fun r => r.isbn)) : (ratingGroup rs (some s)).length ≠ 0 := by
  obtain ⟨r, hr, hrs⟩ := List.mem_map.mp h
  have hmem : r ∈ ratingGroup rs (some s) := List.mem_filter.mpr ⟨hr, by simp [hrs]⟩
  intro hlen
  rw [List.length_eq_zero] at hlen
  rw [hlen] at hmem
  cases hmem

/-- C1: for an ISBN present in both silver Ratings and silver Books (with
ISBN a key of Books), the gold dataset has exactly one row for that ISBN;
that row's rating_count is the number of silver Rating rows in the ISBN's
group and its avg_rating is the arithmetic mean of their RatingValues; an
ISBN absent from silver Books yields no gold row (inner join). -/
theorem aggregate_gold_per_isbn (rs : List RatingRow) (bs : List BookRow)
    (s : String) (g : GoldRow)
    (hvalid : ∀ r ∈ rs, (r.ratingValue).isSome = true)
    (hkey : (bs.filterMap (fun b => b.isbn)).Nodup) :
    (some s ∈ rs.map (fun r => r.isbn) → some s ∈ bs.map (fun b => b.isbn) →
      ((aggregate_gold rs bs).filter (fun g => g.isbn == some s)).length = 1)
    ∧ (g ∈ aggregate_gold rs bs → g.isbn = some s →
        g.rating_count = (ratingGroup rs (some s)).length
        ∧ g.avg_rating = some
            ((((ratingGroup rs (some s)).filterMap (fun r => r.ratingValue)).map
                (fun v : Int => (v : ℚ))).sum
              / ((ratingGroup rs (some s)).length : ℚ)))
    ∧ (some s ∉ bs.map (fun b => b.isbn) → g ∈ aggregate_gold rs bs → g.isbn ≠ some s) := by
  refine ⟨?_, ?_, ?_⟩
  · intro h1 h2
    rw [← List.countP_eq_length_filter, countP_isbn_gold rs bs s,
      countP_eq_one_of_nodup_mem (List.nodup_dedup _) (List.mem_dedup.mpr h1),
      countP_books_eq_one bs s hkey h2]
  · intro hg hisbn
    obtain ⟨k, hk, hjoin⟩ := mem_aggregate_gold.mp hg
    have hik : g.isbn = k := (isbn_of_mem_joinGold hjoin).trans rfl
    have hks : k = some s := by rw [← hik, hisbn]
    subst hks
    unfold joinGold at hjoin
    obtain ⟨b, hbf, rfl⟩ := List.mem_map.mp hjoin
    have hlen : ((ratingGroup rs (some s)).filterMap (fun r => r.ratingValue)).length
        = (ratingGroup rs (some s)).length :=
      length_filterMap_ratingValue _ (fun r hr => hvalid r (List.mem_filter.mp hr).1)
    constructor
    · show ((ratingGroup rs (some s)).filterMap (fun r => r.ratingValue)).length
        = (ratingGroup rs (some s)).length
      exact hlen
    · have hne : ((ratingGroup rs (some s)).filterMap (fun r => r.ratingValue)).length ≠ 0 := by
        rw [hlen]
        exact ratingGroup_length_ne_zero rs s (List.mem_dedup.mp hk)
      show (if ((ratingGroup rs (some s)).filterMap (fun r => r.ratingValue)).length = 0 then none
          else some
            ((((ratingGroup rs (some s)).filterMap (fun r => r.ratingValue)).map
                (fun v : Int => (v : ℚ))).sum
              / (((ratingGroup rs (some s)).filterMap (fun r => r.ratingValue)).length : ℚ)))
        = some
            ((((ratingGroup rs (some s)).filterMap (fun r => r.ratingValue)).map
                (fun v : Int => (v : ℚ))).sum
              / ((ratingGroup rs (some s)).length : ℚ))
      rw [if_neg hne, hlen]
  · intro h2 hg hiss
    obtain ⟨k, hk, hjoin⟩ := mem_aggregate_gold.mp hg
    have hik : g.isbn = k := (isbn_of_mem_joinGold hjoin).trans rfl
    have hks : k = some s := by rw [← hik, hiss]
    subst hks
    unfold joinGold at hjoin
    obtain ⟨b, hbf, rfl⟩ := List.mem_map.mp hjoin
    have hbp : ((some s : Option String).isSome && (b.isbn == some s)) = true :=
      (List.mem_filter.mp hbf).2
    have hbisbn : b.isbn = some s := by
      simpa using hbp
    exact h2 (List.mem_map.mpr ⟨b, (List.mem_filter.mp hbf).1, hbisbn⟩)

/-- The silver Ratings of the spec's worked scenario. -/
def ratingsSample : List RatingRow :=
  [{ userID := some 1, isbn := some "A", ratingValue := some 5 },
   { userID := some 2, isbn := some "A", ratingValue := some 7 },
   { userID := some 3, isbn := some "B", ratingValue := some 10 }]

/-- The silver Books of the spec's worked scenario. -/
def booksSample : List BookRow :=
  [{ isbn := some "A", title := some "Title1", author := some "Auth1",
     publisher := none, year := none },
   { isbn := some "B", title := some "Title2", author := some "Auth2",
     publisher := none, year := none }]

/-- An arbitrary gold row used to instantiate universally quantified rows. -/
def goldDummy : GoldRow :=
  { isbn := none, rating_count := 0, avg_rating := none, title := none,
    author := none, publisher := none, year := none }

/-- Witness for C1: in the scenario, gold has exactly one row for ISBN A. -/
theorem aggregate_gold_per_isbn_witness :
    ((aggregate_gold ratingsSample booksSample).filter (fun g => g.isbn == some "A")).length = 1 :=
  (aggregate_gold_per_isbn ratingsSample booksSample "A" goldDummy
    (by decide) (by decide)).1 (by decide) (by decide)

/-- The mean of a non-empty group whose ratings all lie in [0, 10] is present
and lies in [0, 10]. -/
theorem mkRatingAgg_avg_bounds (rs : List RatingRow) (k : Option String)
    (hbound : ∀ r ∈ ratingGroup rs k, ∃ w, r.ratingValue = some w ∧ 0 ≤ w ∧ w ≤ 10)
    (hne : (ratingGroup rs k).length ≠ 0) :
    ((mkRatingAgg rs k).avg_rating).isSome = true
    ∧ 0 ≤ ((mkRatingAgg rs k).avg_rating).getD 0
    ∧ ((mkRatingAgg rs k).avg_rating).getD 0 ≤ 10 := by
  have hvlen : ((ratingGroup rs k).filterMap (fun r => r.ratingValue)).length
      = (ratingGroup rs k).length :=
    length_filterMap_ratingValue _ (fun r hr => by
      obtain ⟨w, hw, _, _⟩ := hbound r hr
      simp [hw])
  have hne2 : ((ratingGroup rs k).filterMap (fun r => r.ratingValue)).length ≠ 0 := by
    rw [hvlen]
    exact hne
  have havg : (mkRatingAgg rs k).avg_rating = some
      ((((ratingGroup rs k).filterMap (fun r => r.ratingValue)).map
          (fun v : Int => (v : ℚ))).sum
        / (((ratingGroup rs k).filterMap (fun r => r.ratingValue)).length : ℚ)) := by
    show (if ((ratingGroup rs k).filterMap (fun r => r.ratingValue)).length = 0 then none
        else some _) = _
    rw [if_neg hne2]
  have hmem_bound : ∀ x ∈ ((ratingGroup rs k).filterMap (fun r => r.ratingValue)).map
      (fun v : Int => (v : ℚ)), 0 ≤ x ∧ x ≤ 10 := by
    intro x hx
    obtain ⟨v, hv, rfl⟩ := List.mem_map.mp hx
    obtain ⟨r, hrg, hrv⟩ := List.mem_filterMap.mp hv
    obtain ⟨w, hw, h0, h10⟩ := hbound r hrg
    rw [hw] at hrv
    have hwv : w = v := Option.some.inj hrv
    subst hwv
    constructor
    · exact_mod_cast h0
    · exact_mod_cast h10
  have hpos : (0 : ℚ) < (((ratingGroup rs k).filterMap (fun r => r.ratingValue)).length : ℚ) := by
    exact_mod_cast Nat.pos_of_ne_zero hne2
  rw [havg]
  refine ⟨rfl, ?_, ?_⟩
  · simp only [Option.getD_some]
    apply div_nonneg
    · exact List.sum_nonneg (fun x hx => (hmem_bound x hx).1)
    · exact le_of_lt hpos
  · simp only [Option.getD_some]
    rw [div_le_iff₀ hpos]
    have hsum := List.sum_le_card_nsmul
      (((ratingGroup rs k).filterMap (fun r => r.ratingValue)).map
        (fun v : Int => (v : ℚ))) 10 (fun x hx => (hmem_bound x hx).2)
    rw [List.length_map, nsmul_eq_mul] at hsum
    linarith

/-- C10: every gold row aggregated from silver Ratings has a present
avg_rating lying in [0, 10]. -/
theorem gold_avg_in_range (rsb : List RatingRow) (bs : List BookRow) (g : GoldRow)
    (hg : g ∈ aggregate_gold (ratings_silver rsb) bs) :
    (g.avg_rating).isSome = true
    ∧ 0 ≤ (g.avg_rating).getD 0 ∧ (g.avg_rating).getD 0 ≤ 10 := by
  obtain ⟨k, hk, hjoin⟩ := mem_aggregate_gold.mp hg
  unfold joinGold at hjoin
  obtain ⟨b, hbf, rfl⟩ := List.mem_map.mp hjoin
  have hbound : ∀ r ∈ ratingGroup (ratings_silver rsb) k,
      ∃ w, r.ratingValue = some w ∧ 0 ≤ w ∧ w ≤ 10 := by
    intro r hr
    have h1 : r ∈ ratings_silver rsb := (List.mem_filter.mp hr).1
    exact (ratingRowKeep_eq_some_true r).mp (List.mem_filter.mp h1).2
  obtain ⟨r0, hr0, hr0k⟩ := List.mem_map.mp (List.mem_dedup.mp hk)
  have hr0g : r0 ∈ ratingGroup (ratings_silver rsb) k :=
    List.mem_filter.mpr ⟨hr0, by simp [hr0k]⟩
  have hgrplen : (ratingGroup (ratings_silver rsb) k).length ≠ 0 := by
    intro h0
    rw [List.length_eq_zero] at h0
    rw [h0] at hr0g
    cases hr0g
  exact mkRatingAgg_avg_bounds (ratings_silver rsb) k hbound hgrplen

/-- A bronze Ratings dataset with one in-range and one out-of-range row. -/
def ratingsBronzeSample : List RatingRow :=
  [{ userID := some 1, isbn := some "A", ratingValue := some 10 },
   { userID := some 2, isbn := some "A", ratingValue := some (-3) }]

/-- The single gold row obtained from `ratingsBronzeSample` and `booksSample`. -/
def goldAvgRow : GoldRow :=
  { isbn := some "A", rating_count := 1, avg_rating := some 10,
    title := some "Title1", author := some "Auth1", publisher := none, year := none }

/-- Evaluation of the gold pipeline on the sample bronze data. -/
theorem goldAvgRow_eval :
    aggregate_gold (ratings_silver ratingsBronzeSample) booksSample = [goldAvgRow] := by
  norm_num [aggregate_gold, ratings_silver, ratingRowKeep, sqlAnd, sqlGe, sqlLe,
    groupRatingsByISBN, mkRatingAgg, ratingGroup, joinGold, goldAvgRow,
    ratingsBronzeSample, booksSample, List.dedup_cons_of_not_mem, List.filter,
    List.filterMap_cons, List.filterMap_nil,
    (by decide : (("B" : String) == "A") = false)]

/-- Witness for C10: the sample's gold row has its mean in range. -/
theorem gold_avg_in_range_witness :
    (goldAvgRow.avg_rating).isSome = true
    ∧ 0 ≤ (goldAvgRow.avg_rating).getD 0 ∧ (goldAvgRow.avg_rating).getD 0 ≤ 10 :=
  gold_avg_in_range ratingsBronzeSample booksSample goldAvgRow
    (by rw [goldAvgRow_eval]; exact List.mem_singleton.mpr rfl)

/-- `df.orderBy(desc(metric)).limit(n)`: stable sort by the metric,
descending, then take the first `n` rows. -/
def orderByDescLimit {α : Type} (metric : α → Nat) (n : Nat) (l : List α) : List α :=
  (l.mergeSort (fun a b => decide (metric b ≤ metric a))).take n

/-- `BooksPipeline.get_top_books`: gold rows ordered by descending
rating_count, limited to `n`. -/
def get_top_books (gold : List GoldRow) (n : Nat) : List GoldRow :=
  orderByDescLimit (fun g => g.rating_count) n gold

/-- The ranked rows of `orderByDescLimit` are pairwise descending in the metric. -/
theorem orderByDescLimit_sorted {α : Type} (metric : α → Nat) (n : Nat) (l : List α) :
    (orderByDescLimit metric n l).Pairwise (fun a b => metric b ≤ metric a) := by
  have htrans : ∀ a b c : α, (fun a b => decide (metric b ≤ metric a)) a b = true →
      (fun a b => decide (metric b ≤ metric a)) b c = true →
      (fun a b => decide (metric b ≤ metric a)) a c = true := by
    intro a b c hab hbc
    simp only [decide_eq_true_eq] at *
    omega
  have htotal : ∀ a b : α, ((fun a b => decide (metric b ≤ metric a)) a b
      || (fun a b => decide (metric b ≤ metric a)) b a) = true := by
    intro a b
    simp only [Bool.or_eq_true, decide_eq_true_eq]
    omega
  have hs := List.sorted_mergeSort htrans htotal l
  have ht := List.Pairwise.sublist
    (List.take_sublist n (l.mergeSort (fun a b => decide (metric b ≤ metric a)))) hs
  exact ht.imp (fun h => by simpa using h)

/-- C3: the top-books view has exactly `min n (length gold)` rows, is sorted
descending by rating_count, and an empty gold input yields an empty view. -/
theorem get_top_books_spec (gold : List GoldRow) (n : Nat) (hn : 0 < n) :
    (get_top_books gold n).length = min n gold.length
    ∧ (get_top_books gold n).Pairwise (fun a b => b.rating_count ≤ a.rating_count)
    ∧ (gold = [] → get_top_books gold n = []) := by
  refine ⟨?_, orderByDescLimit_sorted _ n gold, ?_⟩
  · rw [get_top_books, orderByDescLimit, List.length_take, List.length_mergeSort]
  · intro h
    subst h
    simp [get_top_books, orderByDescLimit]

/-- A two-row gold dataset used to exercise the Ranker. -/
def goldPairSample : List GoldRow :=
  [{ isbn := some "B", rating_count := 1, avg_rating := none, title := some "Title2",
     author := some "Auth2", publisher := none, year := none },
   { isbn := some "A", rating_count := 2, avg_rating := none, title := some "Title1",
     author := some "Auth1", publisher := none, year := none }]

/-- Witness for C3: on the two-row sample with `n = 1`, the view length is
`min 1 2` and the order is descending. -/
theorem get_top_books_spec_witness :
    (get_top_books goldPairSample 1).length = min 1 goldPairSample.length
    ∧ (get_top_books goldPairSample 1).Pairwise
        (fun a b => b.rating_count ≤ a.rating_count)
    ∧ (goldPairSample = [] → get_top_books goldPairSample 1 = []) :=
  get_top_books_spec goldPairSample 1 (by decide)

/-- C9: the top-books view with count `n` is contained in the view with
count `n + 1` on the same input. -/
theorem get_top_books_monotone (gold : List GoldRow) (n : Nat) (hn : 0 < n)
    (x : GoldRow) (hx : x ∈ get_top_books gold n) : x ∈ get_top_books gold (n + 1) := by
  unfold get_top_books orderByDescLimit at hx ⊢
  have h := List.take_take n (n + 1)
    (gold.mergeSort (fun a b => decide (b.rating_count ≤ a.rating_count)))
  rw [min_eq_left (Nat.le_succ n)] at h
  rw [← h] at hx
  exact List.take_subset _ _ hx

/-- The single-row gold dataset used to instantiate Ranker memberships. -/
def goldSingleRow : GoldRow :=
  { isbn := some "A", rating_count := 2, avg_rating := none, title := some "Title1",
    author := some "Auth1", publisher := none, year := none }

/-- Witness for C9: a row of the top-1 view is in the top-2 view. -/
theorem get_top_books_monotone_witness :
    goldSingleRow ∈ get_top_books [goldSingleRow] 2 :=
  get_top_books_monotone [goldSingleRow] 1 (by decide) goldSingleRow
    (by simp [get_top_books, orderByDescLimit, List.mergeSort])

/-- A row of the per-author view: the second `count` aggregate is aliased
back to `rating_count`. -/
structure AuthorCountRow where
  author : Option String
  rating_count : Nat
  deriving DecidableEq

/-- `gold_books.groupBy("Book-Author").agg(count("rating_count"))`: the
gold column `rating_count` is never null, so counting it counts the gold
rows of the author's group. -/
def groupGoldByAuthor (gold : List GoldRow) : List AuthorCountRow :=
  ((gold.map (fun g => g.author)).dedup).map (fun a =>
    { author := a
      rating_count := (gold.filter (fun g => g.author == a)).length })

/-- `BooksPipeline.get_top_authors`: the per-author view ordered by
descending rating_count, limited to `n`. -/
def get_top_authors (gold : List GoldRow) (n : Nat) : List AuthorCountRow :=
  orderByDescLimit (fun a => a.rating_count) n (groupGoldByAuthor gold)

/-- C4: each author row of the top-authors view carries the number of gold
rows (rated ISBNs) with that author, not a sum of per-ISBN rating counts. -/
theorem get_top_authors_counts_gold_rows (gold : List GoldRow) (n : Nat)
    (row : AuthorCountRow) (hrow : row ∈ get_top_authors gold n) :
    row.rating_count = (gold.filter (fun g => g.author == row.author)).length := by
  unfold get_top_authors orderByDescLimit at hrow
  have h1 := List.take_subset _ _ hrow
  have h2 : row ∈ groupGoldByAuthor gold := (List.mergeSort_perm _ _).mem_iff.mp h1
  unfold groupGoldByAuthor at h2
  obtain ⟨a, _, rfl⟩ := List.mem_map.mp h2
  rfl

/-- The author row obtained from the single-row gold sample. -/
def authorCountSingle : AuthorCountRow :=
  { author := some "Auth1", rating_count := 1 }

/-- Witness for C4: with one gold row, the author view counts one gold row. -/
theorem get_top_authors_counts_gold_rows_witness :
    authorCountSingle.rating_count
      = ([goldSingleRow].filter (fun g => g.author == authorCountSingle.author)).length :=
  get_top_authors_counts_gold_rows [goldSingleRow] 1 authorCountSingle
    (by simp [get_top_authors, orderByDescLimit, groupGoldByAuthor, goldSingleRow,
      authorCountSingle, List.mergeSort])

/-- `users_silver.join(ratings_silver, on="User-ID", how="inner")`: each user
row pairs with every rating row having the same non-null User-ID. -/
def joinUsersRatingsOnUserID (us : List UserRow) (rs : List RatingRow) :
    List (UserRow × RatingRow) :=
  us.flatMap (fun u =>
    (rs.filter (fun r => u.userID.isSome && r.userID == u.userID)).map (fun r => (u, r)))

/-- A row of the per-location cross-view. -/
structure LocationCountRow where
  location : Option String
  user_count : Nat
  deriving DecidableEq

/-- A row of the per-age cross-view. -/
structure AgeCountRow where
  age : Option Int
  user_count : Nat
  deriving DecidableEq

/-- `BooksPipeline.get_top_locations_of_users_who_rated_books`: join Users
and Ratings on User-ID, group by Location, count the group's non-null
User-IDs as `user_count`, order descending and limit. -/
def get_top_locations_of_users_who_rated_books (us : List UserRow) (rs : List RatingRow)
    (n : Nat) : List LocationCountRow :=
  orderByDescLimit (fun x => x.user_count) n
    ((((joinUsersRatingsOnUserID us rs).map (fun p => p.1.location)).dedup).map (fun k =>
      { location := k
        user_count := ((joinUsersRatingsOnUserID us rs).filter
            (fun p => p.1.location == k)).countP (fun p => p.1.userID.isSome) }))

/-- `BooksPipeline.get_top_age_of_users_who_rated_books`: as for locations,
grouped by Age. -/
def get_top_age_of_users_who_rated_books (us : List UserRow) (rs : List RatingRow)
    (n : Nat) : List AgeCountRow :=
  orderByDescLimit (fun x => x.user_count) n
    ((((joinUsersRatingsOnUserID us rs).map (fun p => p.1.age)).dedup).map (fun k =>
      { age := k
        user_count := ((joinUsersRatingsOnUserID us rs).filter
            (fun p => p.1.age == k)).countP (fun p => p.1.userID.isSome) }))

/-- Every joined row carries a non-null User-ID (inner join on equality). -/
theorem join_userID_isSome (us : List UserRow) (rs : List RatingRow) :
    ∀ p ∈ joinUsersRatingsOnUserID us rs, (p.1.userID).isSome = true := by
  intro p hp
  obtain ⟨u, _, hmap⟩ := List.mem_flatMap.mp hp
  obtain ⟨r, hr, rfl⟩ := List.mem_map.mp hmap
  exact (Bool.and_eq_true _ _ |>.mp (List.mem_filter.mp hr).2).1

/-- Counting non-null User-IDs in a bucket of the join equals the bucket size. -/
theorem join_bucket_countP_eq_length (us : List UserRow) (rs : List RatingRow)
    (q : UserRow × RatingRow → Bool) :
    (((joinUsersRatingsOnUserID us rs).filter q).countP (fun p => p.1.userID.isSome))
      = ((joinUsersRatingsOnUserID us rs).filter q).length :=
  List.countP_eq_length.mpr
    (fun p hp => join_userID_isSome us rs p (List.mem_filter.mp hp).1)

/-- Unfolding the join on a cons cell of the Users dataset. -/
theorem joinUsersRatings_cons (u : UserRow) (tl : List UserRow) (rs : List RatingRow) :
    joinUsersRatingsOnUserID (u :: tl) rs
      = (rs.filter (fun r => u.userID.isSome && r.userID == u.userID)).map (fun r => (u, r))
          ++ joinUsersRatingsOnUserID tl rs := rfl

/-- The size of a join bucket keyed on a user attribute is the sum, over the
users in the bucket, of the number of ratings matching each user. -/
theorem join_filter_left_length (us : List UserRow) (rs : List RatingRow)
    (keyp : UserRow → Bool) :
    ((joinUsersRatingsOnUserID us rs).filter (fun p => keyp p.1)).length
      = ((us.filter keyp).map
          (fun u => (rs.filter (fun r => u.userID.isSome && r.userID == u.userID)).length)).sum := by
  induction us with
  | nil => rfl
  | cons u tl ih =>
    rw [joinUsersRatings_cons, List.filter_append, List.length_append, List.filter_map]
    by_cases hk : keyp u = true
    · have hcomp : ((fun p : UserRow × RatingRow => keyp p.1) ∘ fun r => (u, r))
          = fun _ : RatingRow => true := by
        funext r
        simp [hk]
      rw [hcomp, List.filter_true, List.length_map, List.filter_cons_of_pos hk,
        List.map_cons, List.sum_cons, ih]
    · have hcomp : ((fun p : UserRow × RatingRow => keyp p.1) ∘ fun r => (u, r))
          = fun _ : RatingRow => false := by
        funext r
        simp [hk]
      rw [hcomp, List.filter_false, List.filter_cons_of_neg (by simp [hk])]
      simpa using ih

/-- C5: in both cross-views, each bucket's `user_count` is the number of
joined Users-Ratings rows falling in the bucket, i.e. the sum over the
bucket's users of how many ratings each made (a user who rated K books
contributes K), not a distinct-user count. -/
theorem cross_view_user_count (us : List UserRow) (rs : List RatingRow) (n : Nat)
    (lrow : LocationCountRow) (arow : AgeCountRow) :
    (lrow ∈ get_top_locations_of_users_who_rated_books us rs n →
      lrow.user_count
        = ((joinUsersRatingsOnUserID us rs).filter
            (fun p => p.1.location == lrow.location)).length
      ∧ lrow.user_count
        = ((us.filter (fun u => u.location == lrow.location)).map
            (fun u => (rs.filter (fun r => u.userID.isSome && r.userID == u.userID)).length)).sum)
    ∧ (arow ∈ get_top_age_of_users_who_rated_books us rs n →
      arow.user_count
        = ((joinUsersRatingsOnUserID us rs).filter
            (fun p => p.1.age == arow.age)).length
      ∧ arow.user_count
        = ((us.filter (fun u => u.age == arow.age)).map
            (fun u => (rs.filter (fun r => u.userID.isSome && r.userID == u.userID)).length)).sum) := by
  constructor
  · intro h
    unfold get_top_locations_of_users_who_rated_books orderByDescLimit at h
    have h1 := List.take_subset _ _ h
    have h2 := (List.mergeSort_perm _ _).mem_iff.mp h1
    obtain ⟨k, _, rfl⟩ := List.mem_map.mp h2
    have hc := join_bucket_countP_eq_length us rs (fun p => p.1.location == k)
    exact ⟨hc, hc.trans (join_filter_left_length us rs (fun u => u.location == k))⟩
  · intro h
    unfold get_top_age_of_users_who_rated_books orderByDescLimit at h
    have h1 := List.take_subset _ _ h
    have h2 := (List.mergeSort_perm _ _).mem_iff.mp h1
    obtain ⟨k, _, rfl⟩ := List.mem_map.mp h2
    have hc := join_bucket_countP_eq_length us rs (fun p => p.1.age == k)
    exact ⟨hc, hc.trans (join_filter_left_length us rs (fun u => u.age == k))⟩

/-- One silver user. -/
def usersSample : List UserRow :=
  [{ userID := some 1, location := some "city", age := some 30 }]

/-- Two silver ratings by the one sample user. -/
def ratingsByOneUser : List RatingRow :=
  [{ userID := some 1, isbn := some "A", ratingValue := some 5 },
   { userID := some 1, isbn := some "B", ratingValue := some 7 }]

/-- The expected location bucket: the single user rated two books, so the
bucket counts 2 rating events. -/
def locationCountSample : LocationCountRow :=
  { location := some "city", user_count := 2 }

/-- An age bucket row used to instantiate the age half of the statement. -/
def ageCountSample : AgeCountRow :=
  { age := some 30, user_count := 2 }

/-- Witness for C5: the sample user rated 2 books and contributes 2 to the
"city" bucket. -/
theorem cross_view_user_count_witness :
    locationCountSample.user_count
      = ((usersSample.filter (fun u => u.location == locationCountSample.location)).map
          (fun u => (ratingsByOneUser.filter
            (fun r => u.userID.isSome && r.userID == u.userID)).length)).sum :=
  ((cross_view_user_count usersSample ratingsByOneUser 1 locationCountSample ageCountSample).1
    (by simp [get_top_locations_of_users_who_rated_books, orderByDescLimit,
      joinUsersRatingsOnUserID, usersSample, ratingsByOneUser, locationCountSample,
      List.mergeSort, List.dedup_cons_of_not_mem])).2

/-- The failure raised when a stage runs before its prerequisite stage: in
the Python class the prerequisite attribute was never assigned and the
access fails (the spec's SequenceError, "prerequisite stage missing"). -/
inductive PipelineError where
  | sequenceError
  deriving DecidableEq

/-- The instance-held stage outputs of `BooksPipeline`: a `none` field
models an attribute that its stage has not yet assigned. -/
structure PipelineState where
  booksSilver : Option (List BookRow)
  ratingsSilver : Option (List RatingRow)
  usersSilver : Option (List UserRow)
  goldBooks : Option (List GoldRow)

/-- Invoking `aggregate_gold` on the pipeline state: it reads
`self.ratings_silver` and `self.books_silver`, failing when either is
missing, and otherwise stores the gold dataset. -/
def runAggregateGold (st : PipelineState) : Except PipelineError PipelineState :=
  match st.ratingsSilver, st.booksSilver with
  | some rs, some bs => Except.ok { st with goldBooks := some (aggregate_gold rs bs) }
  | _, _ => Except.error PipelineError.sequenceError

/-- Invoking `get_top_books` on the pipeline state: it reads
`self.gold_books`, failing when it is missing. -/
def runGetTopBooks (st : PipelineState) (n : Nat) : Except PipelineError (List GoldRow) :=
  match st.goldBooks with
  | some g => Except.ok (get_top_books g n)
  | none => Except.error PipelineError.sequenceError

/-- C8: aggregating before cleaning, or ranking before aggregating, fails
with the prerequisite-stage-missing error instead of proceeding. -/
theorem pipeline_stage_order_guard (st : PipelineState) (n : Nat) :
    ((st.ratingsSilver = none ∨ st.booksSilver = none) →
      runAggregateGold st = Except.error PipelineError.sequenceError)
    ∧ (st.goldBooks = none →
      runGetTopBooks st n = Except.error PipelineError.sequenceError) := by
  constructor
  · intro h
    rcases h with h | h <;>
      · rw [runAggregateGold]
        rcases h1 : st.ratingsSilver with _ | rs <;> rcases h2 : st.booksSilver with _ | bs <;>
          simp_all
  · intro h
    rw [runGetTopBooks, h]

/-- The freshly constructed pipeline: no stage attribute assigned yet. -/
def pipelineStart : PipelineState :=
  { booksSilver := none, ratingsSilver := none, usersSilver := none, goldBooks := none }

/-- Witness for C8: on the fresh pipeline, both out-of-order invocations fail. -/
theorem pipeline_stage_order_guard_witness :
    runAggregateGold pipelineStart = Except.error PipelineError.sequenceError
    ∧ runGetTopBooks pipelineStart 10 = Except.error PipelineError.sequenceError :=
  ⟨(pipeline_stage_order_guard pipelineStart 10).1 (Or.inl rfl),
   (pipeline_stage_order_guard pipelineStart 10).2 rfl⟩
